import Mathlib

/-!
Shallow embedding of the chess rules engine in `src/gameLogic/GameState.ts`
(class `ChessGameState`), together with theorems checking the specification's
claims about it.

Modelling conventions:
* TypeScript numbers used as board coordinates are modelled as `Int`
  (all coordinate arithmetic in the source is integer arithmetic).
* `board[r][c]` is a `List (List (Option Piece))`; the `Square.position`
  field of the source always mirrors the indices, is never read, and is
  therefore dropped.  An out-of-range index access, which in JavaScript
  evaluates to `undefined` and makes the subsequent `.piece` access throw
  a `TypeError`, is modelled by `squareAt` returning `none`; public
  operations that can perform such an access return an `Option`, with
  `none` standing for the thrown exception.
* `Math.random()`-driven values (`rollDice`, `tossCoin`) are taken as
  explicit arguments, so state transitions are deterministic functions.
* The source contains an unbounded mutual recursion
  `isSquareUnderAttack -> king raw moves -> isCastlingPossible ->
  isSquareUnderAttack` (it actually overflows the JS call stack in
  reachable positions where both unmoved kings have empty castling gaps
  and neither side is flagged in check, escaping `selectPiece` and
  `movePiece` uncaught).  The recursion is modelled with an explicit fuel
  parameter (`attackRec`) standing for the call stack; exhausted fuel
  answers `false`, so the stack-overflow exception itself is outside this
  model and no theorem below claims anything about states that exhaust
  the fuel.  Every terminating JS execution nests these gates only a few
  levels deep, far below the fuel bound, where the model agrees with the
  source; all concrete positions evaluated below are in that regime.
-/

namespace LuckyChess

inductive PlayerColor where
  | white
  | black
deriving DecidableEq, Repr

inductive PieceType where
  | pawn
  | knight
  | bishop
  | rook
  | queen
  | king
deriving DecidableEq, Repr

structure Piece where
  type : PieceType
  color : PlayerColor
  hasMoved : Bool
deriving DecidableEq, Repr

structure Position where
  row : Int
  col : Int
deriving DecidableEq, Repr

/-- The 8x8 grid; `none` is an empty square. -/
abbrev Board := List (List (Option Piece))

inductive GameType where
  | classic
  | dice
  | coinToss
deriving DecidableEq, Repr

/-- Source `LastMove` record; fields `from`/`to` are renamed `src`/`dst`
(`from` is a Lean keyword). -/
structure LastMove where
  src : Position
  dst : Position
  piece : Piece
deriving DecidableEq, Repr

structure DiceRoll where
  value : Int
  moves : Int
  player : PlayerColor
deriving DecidableEq, Repr

structure CoinToss where
  result : PlayerColor
deriving DecidableEq, Repr

/-- The private fields of class `ChessGameState`. -/
structure EngineState where
  board : Board
  currentTurn : PlayerColor
  selectedPiece : Option Position
  validMoves : List Position
  blockedMoves : List Position
  isInCheck : Option PlayerColor
  isCheckmate : Option PlayerColor
  lastMove : Option LastMove
  gameType : GameType
  remainingMoves : Int
  waitingForCoinToss : Bool
  waitingForDiceRoll : Bool
  lastDiceRoll : Option DiceRoll
  lastCoinToss : Option CoinToss
deriving DecidableEq, Repr

def oppositeColor : PlayerColor → PlayerColor
  | .white => .black
  | .black => .white

/-- Source `isValidPosition`. -/
def isValidPosition (r c : Int) : Bool :=
  decide (0 ≤ r ∧ r < 8 ∧ 0 ≤ c ∧ c < 8)

/-- JS `board[r][c]`: `none` when either index is out of range (where the
source would throw on the following `.piece` access). -/
def squareAt (b : Board) (r c : Int) : Option (Option Piece) :=
  if 0 ≤ r ∧ 0 ≤ c then (b.get? r.toNat).bind (fun row => row.get? c.toNat) else none

/-- JS `board[r][c].piece` in guarded (in-range) contexts. -/
def pieceAt (b : Board) (r c : Int) : Option Piece :=
  (squareAt b r c).bind id

/-- JS `board[r][c].piece = p` (no-op when out of range, which never
happens in the source's guarded write sites). -/
def boardSet (b : Board) (r c : Int) (p : Option Piece) : Board :=
  if 0 ≤ r ∧ 0 ≤ c then
    match b.get? r.toNat with
    | some rowL => b.set r.toNat (rowL.set c.toNat p)
    | none => b
  else b

/-- Row-major list of the 64 coordinates, mirroring the source's nested
`for (row) for (col)` scans. -/
def coordsList : List Position :=
  (List.range 8).flatMap fun r => (List.range 8).map fun c => ⟨(r : Int), (c : Int)⟩

/-- Source `findKingPosition`; `none` models the thrown `Error`. -/
def findKingPosition (color : PlayerColor) (board : Board) : Option Position :=
  coordsList.find? fun q =>
    match pieceAt board q.row q.col with
    | some p => decide (p.type = .king) && decide (p.color = color)
    | none => false

/-- Source `isEnPassantPossible`; reads the live board and `lastMove`. -/
def isEnPassantPossible (st : EngineState) (src dst : Position) : Bool :=
  match pieceAt st.board src.row src.col with
  | none => false
  | some piece =>
    if piece.type ≠ PieceType.pawn then false
    else if (dst.col - src.col).natAbs ≠ 1 then false
    else
      match st.lastMove with
      | none => false
      | some lm =>
        if piece.color = .white then
          decide (lm.piece.type = .pawn ∧ lm.piece.color = .black ∧
            lm.src.row = 1 ∧ lm.dst.row = 3 ∧ lm.dst.col = dst.col ∧
            src.row = 3 ∧ dst.row = 2)
        else
          decide (lm.piece.type = .pawn ∧ lm.piece.color = .white ∧
            lm.src.row = 6 ∧ lm.dst.row = 4 ∧ lm.dst.col = dst.col ∧
            src.row = 4 ∧ dst.row = 5)

/-- Source `calculatePawnMovesRaw`; first component the `validMoves`
accumulator, second the `blockedMoves` accumulator. -/
def pawnMoves (st : EngineState) (pos : Position) (board : Board) :
    List Position × List Position :=
  match pieceAt board pos.row pos.col with
  | none => ([], [])
  | some piece =>
    let dir : Int := if piece.color = .white then -1 else 1
    let startRow : Int := if piece.color = .white then 6 else 1
    let fwdMoves : List Position :=
      if isValidPosition (pos.row + dir) pos.col &&
         (pieceAt board (pos.row + dir) pos.col).isNone then
        ⟨pos.row + dir, pos.col⟩ ::
          (if decide (pos.row = startRow) &&
              isValidPosition (pos.row + 2 * dir) pos.col &&
              (pieceAt board (pos.row + 2 * dir) pos.col).isNone then
            [⟨pos.row + 2 * dir, pos.col⟩]
          else [])
      else []
    let diag : Int → List Position × List Position := fun colOff =>
      let nr := pos.row + dir
      let nc := pos.col + colOff
      if isValidPosition nr nc then
        match pieceAt board nr nc with
        | some tp =>
          if tp.color ≠ piece.color then ([⟨nr, nc⟩], []) else ([], [⟨nr, nc⟩])
        | none =>
          if isEnPassantPossible st pos ⟨nr, nc⟩ then ([⟨nr, nc⟩], []) else ([], [])
      else ([], [])
    let d1 := diag (-1)
    let d2 := diag 1
    (fwdMoves ++ d1.1 ++ d2.1, d1.2 ++ d2.2)

/-- One direction of `calculateLineMovementsRaw`'s `while` loop; the fuel
(always called with 8) bounds the walk, which leaves the board after at
most 7 steps from an in-range start. -/
def lineWalk (board : Board) (pieceColor : PlayerColor) :
    Nat → Int → Int → Int → Int → List Position × List Position
  | 0, _, _, _, _ => ([], [])
  | n + 1, r, c, dr, dc =>
    if isValidPosition r c then
      match pieceAt board r c with
      | none =>
        let rest := lineWalk board pieceColor n (r + dr) (c + dc) dr dc
        (⟨r, c⟩ :: rest.1, rest.2)
      | some tp =>
        if tp.color ≠ pieceColor then ([⟨r, c⟩], []) else ([], [⟨r, c⟩])
    else ([], [])

/-- Source `calculateLineMovementsRaw`. -/
def lineMovesDirs (board : Board) (pos : Position) (dirs : List (Int × Int)) :
    List Position × List Position :=
  match pieceAt board pos.row pos.col with
  | none => ([], [])
  | some piece =>
    dirs.foldl
      (fun acc d =>
        let r := lineWalk board piece.color 8 (pos.row + d.1) (pos.col + d.2) d.1 d.2
        (acc.1 ++ r.1, acc.2 ++ r.2))
      ([], [])

/-- Source `calculateRookMovesRaw`. -/
def rookMoves (board : Board) (pos : Position) : List Position × List Position :=
  lineMovesDirs board pos [(-1, 0), (1, 0), (0, -1), (0, 1)]

/-- Source `calculateBishopMovesRaw`. -/
def bishopMoves (board : Board) (pos : Position) : List Position × List Position :=
  lineMovesDirs board pos [(-1, -1), (-1, 1), (1, -1), (1, 1)]

/-- Source `calculateQueenMovesRaw` (rook directions first, as in the source). -/
def queenMoves (board : Board) (pos : Position) : List Position × List Position :=
  let r := rookMoves board pos
  let b := bishopMoves board pos
  (r.1 ++ b.1, r.2 ++ b.2)

/-- Source `calculateKnightMovesRaw`. -/
def knightMoves (board : Board) (pos : Position) : List Position × List Position :=
  match pieceAt board pos.row pos.col with
  | none => ([], [])
  | some piece =>
    ([((-2 : Int), (-1 : Int)), (-2, 1), (-1, -2), (-1, 2),
      (1, -2), (1, 2), (2, -1), (2, 1)]).foldl
      (fun acc d =>
        let nr := pos.row + d.1
        let nc := pos.col + d.2
        if isValidPosition nr nc then
          match pieceAt board nr nc with
          | none => (acc.1 ++ [⟨nr, nc⟩], acc.2)
          | some tp =>
            if tp.color ≠ piece.color then (acc.1 ++ [⟨nr, nc⟩], acc.2)
            else (acc.1, acc.2 ++ [⟨nr, nc⟩])
        else acc)
      ([], [])

/-- The columns strictly between two columns, in increasing order
(the source's `for (col = startCol + 1; col < endCol; col++)`). -/
def colsStrictlyBetween (a b : Int) : List Int :=
  (List.range (max a b - min a b - 1).toNat).map fun i => min a b + 1 + (i : Int)

/-- Source `isCastlingPossible`, parameterized by the attack query it
recursively calls (`attack p c` stands for
`this.isSquareUnderAttack(p, c)` on the live board). -/
def isCastlingPossibleGen (attack : Position → PlayerColor → Bool)
    (st : EngineState) (kingPos rookPos : Position) : Bool :=
  match pieceAt st.board kingPos.row kingPos.col,
        pieceAt st.board rookPos.row rookPos.col with
  | some king, some rook =>
    if king.type ≠ PieceType.king ∨ king.hasMoved = true ∨
       rook.type ≠ PieceType.rook ∨ rook.hasMoved = true then false
    else if st.isInCheck = some king.color then false
    else if ¬ ((colsStrictlyBetween kingPos.col rookPos.col).all fun c =>
          (pieceAt st.board kingPos.row c).isNone) then false
    else
      let opp := oppositeColor king.color
      if rookPos.col = 7 then
        ([4, 5, 6] : List Int).all fun c => ! attack ⟨kingPos.row, c⟩ opp
      else if rookPos.col = 0 then
        ([2, 3, 4] : List Int).all fun c => ! attack ⟨kingPos.row, c⟩ opp
      else true
  | _, _ => false

/-- Source `calculateKingMovesRaw`; the castling gates read the live board
and check flag through `st`/`attack`, while the normal moves use `board`. -/
def kingMovesGen (attack : Position → PlayerColor → Bool)
    (st : EngineState) (pos : Position) (board : Board) :
    List Position × List Position :=
  match pieceAt board pos.row pos.col with
  | none => ([], [])
  | some piece =>
    let normal :=
      ([((-1 : Int), (-1 : Int)), (-1, 0), (-1, 1), (0, -1),
        (0, 1), (1, -1), (1, 0), (1, 1)]).foldl
        (fun acc d =>
          let nr := pos.row + d.1
          let nc := pos.col + d.2
          if isValidPosition nr nc then
            match pieceAt board nr nc with
            | none => (acc.1 ++ [⟨nr, nc⟩], acc.2)
            | some tp =>
              if tp.color ≠ piece.color then (acc.1 ++ [⟨nr, nc⟩], acc.2)
              else (acc.1, acc.2 ++ [⟨nr, nc⟩])
          else acc)
        (([], []) : List Position × List Position)
    if piece.hasMoved = false ∧ pos.col = 4 then
      let row : Int := if piece.color = .white then 7 else 0
      let ks : List Position :=
        if isCastlingPossibleGen attack st ⟨row, 4⟩ ⟨row, 7⟩ then [⟨row, 6⟩] else []
      let qs : List Position :=
        if isCastlingPossibleGen attack st ⟨row, 4⟩ ⟨row, 0⟩ then [⟨row, 2⟩] else []
      (normal.1 ++ ks ++ qs, normal.2)
    else normal

/-- Source `calculateRawMovesByPieceType` (returns only the `moves`
accumulator, discarding `blockedMoves`, as the source does). -/
def calculateRawMovesByPieceTypeGen (attack : Position → PlayerColor → Bool)
    (st : EngineState) (pos : Position) (t : PieceType) (board : Board) :
    List Position :=
  match t with
  | .pawn => (pawnMoves st pos board).1
  | .rook => (rookMoves board pos).1
  | .knight => (knightMoves board pos).1
  | .bishop => (bishopMoves board pos).1
  | .queen => (queenMoves board pos).1
  | .king => (kingMovesGen attack st pos board).1

/-- Source `isSquareUnderAttack`, parameterized like
`isCastlingPossibleGen`. -/
def isSquareUnderAttackGen (attack : Position → PlayerColor → Bool)
    (st : EngineState) (pos : Position) (byColor : PlayerColor) (board : Board) :
    Bool :=
  coordsList.any fun q =>
    match pieceAt board q.row q.col with
    | some piece =>
      decide (piece.color = byColor) &&
        decide (pos ∈ calculateRawMovesByPieceTypeGen attack st q piece.type board)
    | none => false

/-- Fuel standing for the JS call stack in the unbounded
`isSquareUnderAttack`/`isCastlingPossible` mutual recursion. -/
def stackFuel : Nat := 64

/-- The recursive attack query on the live board (default-argument calls
of the source). -/
def attackRec : Nat → EngineState → Position → PlayerColor → Bool
  | 0, _, _, _ => false
  | n + 1, st, p, c => isSquareUnderAttackGen (attackRec n st) st p c st.board

/-- The attack query against the live board that the source's
default-argument `isSquareUnderAttack(pos, color)` calls perform. -/
def attackLive (st : EngineState) (p : Position) (c : PlayerColor) : Bool :=
  attackRec stackFuel st p c

/-- Source `isSquareUnderAttack` at an explicit board. -/
def isSquareUnderAttack (st : EngineState) (pos : Position)
    (byColor : PlayerColor) (board : Board) : Bool :=
  isSquareUnderAttackGen (attackLive st) st pos byColor board

/-- Source `isCastlingPossible`. -/
def isCastlingPossible (st : EngineState) (kingPos rookPos : Position) : Bool :=
  isCastlingPossibleGen (attackLive st) st kingPos rookPos

/-- Source `calculateRawMovesByPieceType`. -/
def calculateRawMovesByPieceType (st : EngineState) (pos : Position)
    (t : PieceType) (board : Board) : List Position :=
  calculateRawMovesByPieceTypeGen (attackLive st) st pos t board

/-- The scratch-board relocation inside `getValidMovesForPiece`'s filter:
clone, copy the origin piece to the destination, clear the origin. -/
def simulateMove (st : EngineState) (pos m : Position) : Board :=
  boardSet (boardSet st.board m.row m.col (pieceAt st.board pos.row pos.col))
    pos.row pos.col none

/-- Source `getValidMovesForPiece` (the Legality Filter). -/
def getValidMovesForPiece (st : EngineState) (pos : Position) : List Position :=
  match pieceAt st.board pos.row pos.col with
  | none => []
  | some piece =>
    (calculateRawMovesByPieceType st pos piece.type st.board).filter fun m =>
      let temp := simulateMove st pos m
      match (if piece.type = .king then some m else findKingPosition piece.color temp) with
      | none => false
      | some kp => ! isSquareUnderAttack st kp (oppositeColor piece.color) temp

/-- One iteration of `checkForCheck`'s loop body for one color (a missing
king is caught and swallowed, as in the source's `try`/`catch`). -/
def checkColor (s : EngineState) (color : PlayerColor) : EngineState :=
  match findKingPosition color s.board with
  | none => s
  | some kp =>
    if isSquareUnderAttack s kp (oppositeColor color) s.board then
      { s with isInCheck := some color }
    else s

/-- Source `checkForCheck`: reset the flag, then scan White then Black. -/
def checkForCheck (s : EngineState) : EngineState :=
  checkColor (checkColor { s with isInCheck := none } .white) .black

/-- Source `checkForCheckmate`. -/
def checkForCheckmate (s : EngineState) : EngineState :=
  match s.isInCheck with
  | none => { s with isCheckmate := none }
  | some checkedColor =>
    if coordsList.any (fun q =>
        match pieceAt s.board q.row q.col with
        | some p =>
          decide (p.color = checkedColor) && ! (getValidMovesForPiece s q).isEmpty
        | none => false) then
      { s with isCheckmate := none }
    else
      { s with isCheckmate := some checkedColor }

/-- The variant-dependent first block of `handlePostMove` (dice counter /
coin-toss flag / classic alternation). -/
def advanceTurnPhase (s : EngineState) : EngineState :=
  if s.gameType = .dice then
    let s' := { s with remainingMoves := s.remainingMoves - 1 }
    if s'.remainingMoves ≤ 0 ∧ s'.isInCheck = none then
      { s' with waitingForDiceRoll := true }
    else s'
  else if s.gameType = .coinToss ∧ s.isInCheck = none then
    { s with waitingForCoinToss := true }
  else
    { s with currentTurn := oppositeColor s.currentTurn }

def clearSelection (s : EngineState) : EngineState :=
  { s with selectedPiece := none, validMoves := [], blockedMoves := [] }

/-- The tail of `handlePostMove`: when a check is detected, run the
checkmate scan and force alternation, suppressing the variant waits. -/
def applyCheckOverride (s : EngineState) : EngineState :=
  match s.isInCheck with
  | none => s
  | some _ =>
    let s4 := checkForCheckmate s
    match s4.isInCheck with
    | none => s4
    | some _ =>
      { s4 with waitingForDiceRoll := false, waitingForCoinToss := false,
                currentTurn := oppositeColor s4.currentTurn }

/-- Source `handlePostMove`. -/
def handlePostMove (s : EngineState) : EngineState :=
  applyCheckOverride (checkForCheck (clearSelection (advanceTurnPhase s)))

/-- Source `movePiece`.  `none` models the `TypeError` thrown by the
unguarded `board[from.row][from.col]` access on an out-of-range `from`. -/
def movePiece (st : EngineState) (src dst : Position) : Option (Bool × EngineState) :=
  if st.gameType = .dice ∧ st.remainingMoves ≤ 0 then some (false, st)
  else if st.gameType = .coinToss ∧ st.waitingForCoinToss = true then some (false, st)
  else if st.gameType = .dice ∧ st.waitingForDiceRoll = true then some (false, st)
  else
    match squareAt st.board src.row src.col with
    | none => none
    | some none => some (false, st)
    | some (some fromPiece) =>
      if fromPiece.type = .king ∧ src.col = 4 ∧ dst.col = 6 then
        let row : Int := if fromPiece.color = .white then 7 else 0
        if isCastlingPossible st ⟨row, 4⟩ ⟨row, 7⟩ then
          let b1 := boardSet st.board row 6 (some { fromPiece with hasMoved := true })
          let b2 := boardSet b1 row 5 (some ⟨.rook, fromPiece.color, true⟩)
          let b3 := boardSet b2 row 4 none
          let b4 := boardSet b3 row 7 none
          some (true, handlePostMove { st with board := b4 })
        else some (false, st)
      else if fromPiece.type = .king ∧ src.col = 4 ∧ dst.col = 2 then
        let row : Int := if fromPiece.color = .white then 7 else 0
        if isCastlingPossible st ⟨row, 4⟩ ⟨row, 0⟩ then
          let b1 := boardSet st.board row 2 (some { fromPiece with hasMoved := true })
          let b2 := boardSet b1 row 3 (some ⟨.rook, fromPiece.color, true⟩)
          let b3 := boardSet b2 row 4 none
          let b4 := boardSet b3 row 0 none
          some (true, handlePostMove { st with board := b4 })
        else some (false, st)
      else
        if dst ∈ getValidMovesForPiece st src then
          let b0 :=
            if fromPiece.type = .pawn ∧ isEnPassantPossible st src dst = true then
              boardSet st.board src.row dst.col none
            else st.board
          let b1 := boardSet b0 dst.row dst.col (some { fromPiece with hasMoved := true })
          let b2 := boardSet b1 src.row src.col none
          some (true, handlePostMove
            { st with board := b2, lastMove := some ⟨src, dst, fromPiece⟩ })
        else some (false, st)

/-- Source `getCastlingPartners` (display helper used by `selectPiece`). -/
def getCastlingPartners (st : EngineState) (pos : Position) : List Position :=
  match pieceAt st.board pos.row pos.col with
  | none => []
  | some piece =>
    if piece.hasMoved then []
    else
      let row : Int := if piece.color = .white then 7 else 0
      if piece.type = .king ∧ pos.col = 4 then
        (if isCastlingPossible st ⟨row, 4⟩ ⟨row, 7⟩ then [(⟨row, 7⟩ : Position)] else []) ++
        (if isCastlingPossible st ⟨row, 4⟩ ⟨row, 0⟩ then [(⟨row, 0⟩ : Position)] else [])
      else if piece.type = .rook ∧ (pos.col = 0 ∨ pos.col = 7) then
        if isCastlingPossible st ⟨row, 4⟩ pos then [⟨row, 4⟩] else []
      else []

/-- Source `selectPiece`; `none` models the `TypeError` on an out-of-range
position. -/
def selectPiece (st : EngineState) (pos : Position) : Option EngineState :=
  match squareAt st.board pos.row pos.col with
  | none => none
  | some sq =>
    match sq with
    | none => some (clearSelection st)
    | some piece =>
      if piece.color ≠ st.currentTurn then some (clearSelection st)
      else
        let legal := getValidMovesForPiece st pos
        let raw := calculateRawMovesByPieceType st pos piece.type st.board
        let valid := legal ++ getCastlingPartners st pos
        some { st with selectedPiece := some pos,
                       validMoves := valid,
                       blockedMoves := raw.filter fun m => ¬ (m ∈ valid) }

/-- Source `unselectPiece`. -/
def unselectPiece (st : EngineState) : EngineState := clearSelection st

/-- Source `rollDice`; `value` stands for the uniformly drawn
`Math.floor(Math.random() * 6) + 1`. -/
def rollDice (st : EngineState) (value : Int) : DiceRoll × EngineState :=
  if st.isInCheck ≠ none ∨ st.waitingForDiceRoll = false then
    (⟨0, 0, st.currentTurn⟩, st)
  else
    let player : PlayerColor := if value ≤ 3 then .white else .black
    let moves : Int := if value ≤ 3 then value else value - 3
    let roll : DiceRoll := ⟨value, moves, player⟩
    (roll, { st with lastDiceRoll := some roll, currentTurn := player,
                     remainingMoves := moves, waitingForDiceRoll := false })

/-- Source `tossCoin`; `result` stands for the fair-coin draw. -/
def tossCoin (st : EngineState) (result : PlayerColor) : CoinToss × EngineState :=
  if st.isInCheck ≠ none ∨ st.waitingForCoinToss = false then
    (⟨st.currentTurn⟩, st)
  else
    (⟨result⟩, { st with lastCoinToss := some ⟨result⟩, currentTurn := result,
                         waitingForCoinToss := false })

/-- The check/checkmate re-evaluation at the end of `promotePawn`. -/
def recheckPipeline (s : EngineState) : EngineState :=
  let s2 := checkForCheck s
  match s2.isInCheck with
  | some _ => checkForCheckmate s2
  | none => s2

/-- Source `promotePawn`; `none` models the `TypeError` on an out-of-range
position. -/
def promotePawn (st : EngineState) (pos : Position) (newType : PieceType) :
    Option EngineState :=
  match squareAt st.board pos.row pos.col with
  | none => none
  | some sq =>
    match sq with
    | none => some st
    | some piece =>
      if piece.type ≠ PieceType.pawn then some st
      else if ¬ ((piece.color = .white ∧ pos.row = 0) ∨
                 (piece.color = .black ∧ pos.row = 7)) then some st
      else
        let promoted : Option Piece := some ⟨newType, piece.color, true⟩
        some (recheckPipeline
          { st with board := boardSet st.board pos.row pos.col promoted })

def backRank (c : PlayerColor) : List (Option Piece) :=
  [PieceType.rook, .knight, .bishop, .queen, .king, .bishop, .knight, .rook].map
    fun t => some ⟨t, c, false⟩

def pawnRank (c : PlayerColor) : List (Option Piece) :=
  List.replicate 8 (some ⟨.pawn, c, false⟩)

def emptyRank : List (Option Piece) := List.replicate 8 none

/-- Source `createInitialBoard` (row 0 is Black's back rank). -/
def createInitialBoard : Board :=
  [backRank .black, pawnRank .black, emptyRank, emptyRank,
   emptyRank, emptyRank, pawnRank .white, backRank .white]

/-- Source constructor `new ChessGameState(gameType)`. -/
def mkEngine (gt : GameType) : EngineState :=
  { board := createInitialBoard
    currentTurn := .white
    selectedPiece := none
    validMoves := []
    blockedMoves := []
    isInCheck := none
    isCheckmate := none
    lastMove := none
    gameType := gt
    remainingMoves := 1
    waitingForCoinToss := decide (gt = .coinToss)
    waitingForDiceRoll := decide (gt = .dice)
    lastDiceRoll := none
    lastCoinToss := none }

/-- Source `resetGame` (field-by-field, as in the source; `gameType` is
kept). -/
def resetGame (st : EngineState) : EngineState :=
  { board := createInitialBoard
    currentTurn := .white
    selectedPiece := none
    validMoves := []
    blockedMoves := []
    isInCheck := none
    isCheckmate := none
    lastMove := none
    gameType := st.gameType
    remainingMoves := 1
    waitingForCoinToss := decide (st.gameType = .coinToss)
    waitingForDiceRoll := decide (st.gameType = .dice)
    lastDiceRoll := none
    lastCoinToss := none }

/-- The snapshot type returned by `getState`. -/
structure GameState where
  board : Board
  currentTurn : PlayerColor
  selectedPiece : Option Position
  validMoves : List Position
  blockedMoves : List Position
  isInCheck : Option PlayerColor
  isCheckmate : Option PlayerColor
  lastMove : Option LastMove
  gameType : GameType
  remainingMoves : Int
  waitingForCoinToss : Bool
  waitingForDiceRoll : Bool
deriving DecidableEq, Repr

/-- Source `getState`. -/
def getState (st : EngineState) : GameState :=
  { board := st.board
    currentTurn := st.currentTurn
    selectedPiece := st.selectedPiece
    validMoves := st.validMoves
    blockedMoves := st.blockedMoves
    isInCheck := st.isInCheck
    isCheckmate := st.isCheckmate
    lastMove := st.lastMove
    gameType := st.gameType
    remainingMoves := st.remainingMoves
    waitingForCoinToss := st.waitingForCoinToss
    waitingForDiceRoll := st.waitingForDiceRoll }

/-! Concrete states and traces used to settle the claims. -/

/-- In-range predicate for public position arguments. -/
def inRange (p : Position) : Prop :=
  0 ≤ p.row ∧ p.row < 8 ∧ 0 ≤ p.col ∧ p.col < 8

instance (p : Position) : Decidable (inRange p) := by
  unfold inRange; infer_instance

/-- An 8x8 board shape (maintained by every reachable state). -/
def boardWF (b : Board) : Prop :=
  b.length = 8 ∧ ∀ row ∈ b, row.length = 8

instance (b : Board) : Decidable (boardWF b) := by
  unfold boardWF; infer_instance

/-- Successor state of a `movePiece` call (identity when the call throws). -/
def stepMove (s : EngineState) (src dst : Position) : EngineState :=
  match movePiece s src dst with
  | some (_, s') => s'
  | none => s

/-- An empty 8x8 board. -/
def emptyBoard : Board := List.replicate 8 emptyRank

/-- Place one piece on a board. -/
def placed (b : Board) (r c : Int) (t : PieceType) (pc : PlayerColor)
    (moved : Bool) : Board :=
  boardSet b r c (some ⟨t, pc, moved⟩)

/-- A bare classic-variant state around a given board. -/
def bareState (b : Board) (turn : PlayerColor) : EngineState :=
  { mkEngine .classic with board := b, currentTurn := turn }

/-- Fool's mate trace: f2-f3, e7-e5, g2-g4, Qd8-h4 (checkmating White),
then the still-running engine lets Black play Qh4-h3, after which the
check has evaporated but the stale mate flag survives. -/
def cmS0 : EngineState := mkEngine .classic
def cmS1 : EngineState := stepMove cmS0 ⟨6, 5⟩ ⟨5, 5⟩
def cmS2 : EngineState := stepMove cmS1 ⟨1, 4⟩ ⟨3, 4⟩
def cmS3 : EngineState := stepMove cmS2 ⟨6, 6⟩ ⟨4, 6⟩
def cmS4 : EngineState := stepMove cmS3 ⟨0, 3⟩ ⟨4, 7⟩
def cmS5 : EngineState := stepMove cmS4 ⟨4, 7⟩ ⟨5, 7⟩

/-- A classic state in which White may castle kingside: only the two kings
and White's kingside rook are on the board, all unmoved. -/
def castleState : EngineState :=
  bareState (placed (placed (placed emptyBoard 7 4 .king .white false)
    7 7 .rook .white false) 0 4 .king .black true) .white

/-- Dice-variant state: White is flagged in check by the rook on e8 and
has exactly one granted move left. -/
def diceCheckBoard : Board :=
  placed (placed (placed emptyBoard 7 4 .king .white true)
    0 4 .rook .black true) 0 0 .king .black true

def c4State : EngineState :=
  { mkEngine .dice with
      board := diceCheckBoard
      currentTurn := .white
      isInCheck := some .white
      remainingMoves := 1
      waitingForDiceRoll := false }

/-- Classic state where it is White's turn but a Black pawn sits on
Black's promotion rank (row 7). -/
def c8State : EngineState :=
  bareState (placed (placed (placed emptyBoard 6 6 .king .white true)
    0 0 .king .black true) 7 0 .pawn .black true) .white

/-- Dead-locked dice state: the turn's last granted move delivered check,
so `remainingMoves = 0`, `waitingForDiceRoll = false` and White (to move)
is flagged in check; a stranded Black pawn sits on row 7. -/
def c10State : EngineState :=
  { mkEngine .dice with
      board := placed diceCheckBoard 7 0 .pawn .black true
      currentTurn := .white
      isInCheck := some .white
      remainingMoves := 0
      waitingForDiceRoll := false }

/-- A tiny position used to witness C1: White pawn on a2 with both kings
present. -/
def pawnProbeState : EngineState :=
  bareState (placed (placed (placed emptyBoard 7 4 .king .white false)
    6 0 .pawn .white false) 0 4 .king .black false) .white

/-- Result of the Dice-variant probe move used to witness C4's amended
statement. -/
def c4After : EngineState := stepMove c4State ⟨7, 4⟩ ⟨7, 3⟩

/-- Result of White's opening pawn push e2-e4 from a fresh classic
engine, used to witness C6's amended statement. -/
def e2e4After : EngineState := stepMove cmS0 ⟨6, 4⟩ ⟨4, 4⟩

/-- The back-rank row a castling attempt works on, `const row` of the
source's castling branch. -/
def castleRowOf (piece : Piece) : Int :=
  if piece.color = .white then 7 else 0

/-- The rook column selected by a castling destination column. -/
def castleRookCol (dst : Position) : Int :=
  if dst.col = 6 then 7 else 0

/-- The king transit columns checked for attacks by the source's castling
precondition (start through destination). -/
def castleTransitCols (dst : Position) : List Int :=
  if dst.col = 6 then [4, 5, 6] else [2, 3, 4]

/-- Result of White castling kingside from `castleState`. -/
def castleAfter : EngineState := stepMove castleState ⟨7, 4⟩ ⟨7, 6⟩

/-- The board update performed by a firing `promotePawn`. -/
def promoteApplied (st : EngineState) (pos : Position) (t : PieceType)
    (c : PlayerColor) : EngineState :=
  { st with board := boardSet st.board pos.row pos.col (some ⟨t, c, true⟩) }

/-! Structural lemmas about the detector and the post-move pipeline. -/

theorem checkColor_eq (s : EngineState) (c : PlayerColor) :
    checkColor s c = { s with isInCheck := (checkColor s c).isInCheck } := by
  unfold checkColor
  rcases findKingPosition c s.board with _ | kp
  · simp
  · dsimp only
    split <;> simp

theorem checkForCheck_eq (s : EngineState) :
    checkForCheck s = { s with isInCheck := (checkForCheck s).isInCheck } := by
  unfold checkForCheck
  rw [checkColor_eq ({ s with isInCheck := none }) .white]
  rw [checkColor_eq _ PlayerColor.black]

theorem checkForCheckmate_eq (s : EngineState) :
    checkForCheckmate s = { s with isCheckmate := (checkForCheckmate s).isCheckmate } := by
  unfold checkForCheckmate
  rcases s.isInCheck with _ | c
  · simp
  · dsimp only
    split <;> simp

theorem checkForCheckmate_isInCheck (s : EngineState) :
    (checkForCheckmate s).isInCheck = s.isInCheck := by
  conv_lhs => rw [checkForCheckmate_eq s]

/-- C9: for every variant and every state, `resetGame` followed by
`getState` yields the same snapshot as `getState` right after
constructing a fresh engine with the same variant. -/
theorem reset_constructor_roundtrip (st : EngineState) :
    getState (resetGame st) = getState (mkEngine st.gameType) := rfl

/-- C2: the invariant fails on the code.  Fool's mate sets
`isCheckmate = White` (with `isInCheck = White`), but the engine keeps
accepting moves; after Black's follow-up `Qh4-h3` the re-evaluation
clears `isInCheck` while `handlePostMove` never reruns the checkmate
scan, leaving a stale `isCheckmate = White` with `isInCheck = none`. -/
theorem staleCheckmate_code_bug :
    cmS4.isInCheck = some PlayerColor.white ∧
    cmS4.isCheckmate = some PlayerColor.white ∧
    cmS5.isInCheck = none ∧
    cmS5.isCheckmate = some PlayerColor.white := by
  decide

/-- C3 counterexample: `selectPiece` on the out-of-range position
`{row 8, col 0}` of a freshly constructed engine throws (the unguarded
`board[8]` access), instead of rejecting by a cleared selection. -/
theorem publicOps_raise_counterexample :
    selectPiece (mkEngine .classic) ⟨8, 0⟩ = none := by decide

/-- C4 counterexample: in `c4State` (Dice variant, one granted move left,
mover flagged in check), the check-resolving king move succeeds,
`remainingMoves` reaches 0 and no check exists after the move, yet
`waitingForDiceRoll` stays `false` because the gate reads the stale
pre-move check flag. -/
theorem dice_waiting_flag_counterexample :
    (movePiece c4State ⟨7, 4⟩ ⟨7, 3⟩).map
        (fun r => (r.1, r.2.remainingMoves, r.2.isInCheck, r.2.waitingForDiceRoll)) =
      some (true, 0, none, false) := by
  decide

/-- C6 counterexample: a successful kingside castling from `castleState`
returns `true` but leaves `lastMove` at its previous value (`none`)
instead of overwriting it with a `{from, to, piece}` record. -/
theorem castling_skips_lastMove_counterexample :
    (movePiece castleState ⟨7, 4⟩ ⟨7, 6⟩).map (fun r => (r.1, r.2.lastMove)) =
      some (true, none) := by
  decide

/-- C8 counterexample: with White to move, `promotePawn` on a Black pawn
sitting on row 7 is not a no-op — it promotes the opponent's pawn, so
the precondition checks the pawn's own color, not the current mover's. -/
theorem promotePawn_wrong_color_counterexample :
    c8State.currentTurn = PlayerColor.white ∧
    pieceAt c8State.board 7 0 = some ⟨.pawn, .black, true⟩ ∧
    (promotePawn c8State ⟨7, 0⟩ .queen).map (fun s => pieceAt s.board 7 0) =
      some (some ⟨.queen, .black, true⟩) := by
  decide

/-- C10 counterexample: `c10State` satisfies the claim's state class
(Dice variant, `remainingMoves ≤ 0`, `waitingForDiceRoll = false`,
check flagged), yet `promotePawn` — a public operation other than
`resetGame` — changes the game by promoting the stranded pawn. -/
theorem deadlock_promote_counterexample :
    c10State.gameType = .dice ∧ c10State.remainingMoves ≤ 0 ∧
    c10State.waitingForDiceRoll = false ∧ c10State.isInCheck = some .white ∧
    (promotePawn c10State ⟨7, 0⟩ .queen).map
        (fun s => decide (s.board = c10State.board)) = some false := by
  decide

/-- Every successful `movePiece` passes the three variant gates and ends
in `handlePostMove` applied to `st` with only `board` and `lastMove`
updated. -/
theorem movePiece_success {st : EngineState} {src dst : Position} {s' : EngineState}
    (h : movePiece st src dst = some (true, s')) :
    ¬ (st.gameType = .dice ∧ st.remainingMoves ≤ 0) ∧
    ¬ (st.gameType = .coinToss ∧ st.waitingForCoinToss = true) ∧
    ¬ (st.gameType = .dice ∧ st.waitingForDiceRoll = true) ∧
    ∃ b lm, s' = handlePostMove { st with board := b, lastMove := lm } := by
  have g1 : ¬ (st.gameType = .dice ∧ st.remainingMoves ≤ 0) := by
    intro hg
    simp only [movePiece, if_pos hg] at h
    simp at h
  have g2 : ¬ (st.gameType = .coinToss ∧ st.waitingForCoinToss = true) := by
    intro hg
    simp only [movePiece, if_neg g1, if_pos hg] at h
    simp at h
  have g3 : ¬ (st.gameType = .dice ∧ st.waitingForDiceRoll = true) := by
    intro hg
    simp only [movePiece, if_neg g1, if_neg g2, if_pos hg] at h
    simp at h
  refine ⟨g1, g2, g3, ?_⟩
  simp only [movePiece, if_neg g1, if_neg g2, if_neg g3] at h
  rcases hsq : squareAt st.board src.row src.col with _ | _ | fromPiece <;>
    rw [hsq] at h
  · exact absurd h (by simp)
  · exact absurd h (by simp)
  · dsimp only at h
    split_ifs at h <;> simp only [Option.some.injEq, Prod.mk.injEq] at h <;>
      first
      | exact ⟨_, _, h.2.symm⟩
      | exact absurd h.1 (by simp)

/-- C1: every destination kept by the legality filter
`getValidMovesForPiece` leaves the mover's own king unattacked on the
scratch board obtained by simulating the relocation (and the king lookup
used by the filter succeeds). -/
theorem legalMoves_no_self_check (st : EngineState) (pos m : Position)
    (piece : Piece) (hp : pieceAt st.board pos.row pos.col = some piece)
    (hturn : piece.color = st.currentTurn)
    (hm : m ∈ getValidMovesForPiece st pos) :
    ∃ kp, (if piece.type = .king then some m
           else findKingPosition piece.color (simulateMove st pos m)) = some kp ∧
      isSquareUnderAttack st kp (oppositeColor piece.color) (simulateMove st pos m) = false := by
  unfold getValidMovesForPiece at hm
  rw [hp] at hm
  have h2 := (List.mem_filter.mp hm).2
  dsimp only at h2
  rcases hkp : (if piece.type = .king then some m
      else findKingPosition piece.color (simulateMove st pos m)) with _ | kp
  · rw [hkp] at h2
    simp at h2
  · rw [hkp] at h2
    exact ⟨kp, rfl, by simpa using h2⟩

/-- C1 witness: the filter's verdict for the pawn push a2-a3 in
`pawnProbeState`, obtained by applying `legalMoves_no_self_check` at
that concrete input. -/
theorem legalMoves_no_self_check_witness :
    ∃ kp, findKingPosition PlayerColor.white
        (simulateMove pawnProbeState ⟨6, 0⟩ ⟨5, 0⟩) = some kp ∧
      isSquareUnderAttack pawnProbeState kp (oppositeColor PlayerColor.white)
        (simulateMove pawnProbeState ⟨6, 0⟩ ⟨5, 0⟩) = false := by
  simpa using legalMoves_no_self_check pawnProbeState ⟨6, 0⟩ ⟨5, 0⟩
    ⟨.pawn, .white, false⟩ (by decide) (by decide) (by decide)

theorem checkForCheck_currentTurn (s : EngineState) :
    (checkForCheck s).currentTurn = s.currentTurn := by
  rw [checkForCheck_eq s]

theorem applyCheckOverride_none (s : EngineState) (h : s.isInCheck = none) :
    applyCheckOverride s = s := by
  unfold applyCheckOverride
  rw [h]

theorem applyCheckOverride_some (s : EngineState) (c : PlayerColor)
    (h : s.isInCheck = some c) :
    applyCheckOverride s =
      { checkForCheckmate s with
          waitingForDiceRoll := false
          waitingForCoinToss := false
          currentTurn := oppositeColor s.currentTurn } := by
  unfold applyCheckOverride
  rw [h]
  dsimp only
  have h4 : (checkForCheckmate s).isInCheck = some c := by
    rw [checkForCheckmate_isInCheck, h]
  rw [h4]
  have ht : (checkForCheckmate s).currentTurn = s.currentTurn := by
    conv_lhs => rw [checkForCheckmate_eq s]
  rw [ht]

theorem applyCheckOverride_isInCheck (s : EngineState) :
    (applyCheckOverride s).isInCheck = s.isInCheck := by
  rcases h : s.isInCheck with _ | c
  · rw [applyCheckOverride_none s h, h]
  · rw [applyCheckOverride_some s c h]
    dsimp only
    rw [checkForCheckmate_isInCheck, h]

/-- C5: whenever a successful `movePiece` ends with a detected check,
both waiting flags are forced `false` and `currentTurn` is the opposite
of the turn as it stood just before the override ran (i.e. right after
the variant's own advancement `advanceTurnPhase`). -/
theorem check_override_forces_alternation (st : EngineState) (src dst : Position)
    (s' : EngineState) (h : movePiece st src dst = some (true, s'))
    (hc : s'.isInCheck ≠ none) :
    s'.waitingForDiceRoll = false ∧ s'.waitingForCoinToss = false ∧
    ∃ sMid, s' = handlePostMove sMid ∧
      s'.currentTurn = oppositeColor (advanceTurnPhase sMid).currentTurn := by
  obtain ⟨-, -, -, b, lm, hs⟩ := movePiece_success h
  subst hs
  set sMid : EngineState := { st with board := b, lastMove := lm } with hsMid
  set s3 := checkForCheck (clearSelection (advanceTurnPhase sMid)) with hs3
  have hhp : handlePostMove sMid = applyCheckOverride s3 := rfl
  rw [hhp] at hc ⊢
  rcases hX : s3.isInCheck with _ | c
  · rw [applyCheckOverride_none s3 hX] at hc
    exact absurd hX hc
  · rw [applyCheckOverride_some s3 c hX]
    refine ⟨rfl, rfl, sMid, ?_, ?_⟩
    · rw [hhp, applyCheckOverride_some s3 c hX]
    · show oppositeColor s3.currentTurn = oppositeColor (advanceTurnPhase sMid).currentTurn
      rw [hs3, checkForCheck_currentTurn]
      rfl

/-- C5 witness: the fool's mate checking move `Qd8-h4` from `cmS3`,
through `check_override_forces_alternation` at that concrete input. -/
theorem check_override_forces_alternation_witness :
    cmS4.waitingForDiceRoll = false ∧ cmS4.waitingForCoinToss = false ∧
    ∃ sMid, cmS4 = handlePostMove sMid ∧
      cmS4.currentTurn = oppositeColor (advanceTurnPhase sMid).currentTurn :=
  check_override_forces_alternation cmS3 ⟨0, 3⟩ ⟨4, 7⟩ cmS4 (by decide) (by decide)

theorem checkForCheck_remainingMoves (s : EngineState) :
    (checkForCheck s).remainingMoves = s.remainingMoves := by
  rw [checkForCheck_eq s]

theorem checkForCheck_waitingForDiceRoll (s : EngineState) :
    (checkForCheck s).waitingForDiceRoll = s.waitingForDiceRoll := by
  rw [checkForCheck_eq s]

theorem checkForCheckmate_remainingMoves (s : EngineState) :
    (checkForCheckmate s).remainingMoves = s.remainingMoves := by
  conv_lhs => rw [checkForCheckmate_eq s]

/-- Behaviour of `handlePostMove` in the Dice variant: the counter always
drops by exactly one, and the engine re-enters the dice wait exactly when
the counter is exhausted, the stale pre-move check flag was clear, and
the freshly recomputed check flag is also clear. -/
theorem handlePostMove_dice (s : EngineState) (hgt : s.gameType = .dice)
    (hw : s.waitingForDiceRoll = false) :
    (handlePostMove s).remainingMoves = s.remainingMoves - 1 ∧
    ((handlePostMove s).waitingForDiceRoll = true ↔
      ((handlePostMove s).remainingMoves ≤ 0 ∧ s.isInCheck = none ∧
        (handlePostMove s).isInCheck = none)) := by
  have ha : advanceTurnPhase s =
      (if s.remainingMoves - 1 ≤ 0 ∧ s.isInCheck = none then
        { s with remainingMoves := s.remainingMoves - 1, waitingForDiceRoll := true }
      else { s with remainingMoves := s.remainingMoves - 1 }) := by
    unfold advanceTurnPhase
    rw [if_pos hgt]
  unfold handlePostMove
  rw [ha]
  by_cases hcond : s.remainingMoves - 1 ≤ 0 ∧ s.isInCheck = none
  · rw [if_pos hcond]
    set s3 := checkForCheck (clearSelection
      { s with remainingMoves := s.remainingMoves - 1, waitingForDiceRoll := true }) with hs3
    have hrm3 : s3.remainingMoves = s.remainingMoves - 1 := by
      rw [hs3, checkForCheck_remainingMoves]
      rfl
    have hwd3 : s3.waitingForDiceRoll = true := by
      rw [hs3, checkForCheck_waitingForDiceRoll]
      rfl
    rcases hX : s3.isInCheck with _ | c
    · rw [applyCheckOverride_none s3 hX]
      exact ⟨hrm3, by simp [hwd3, hX, hrm3, hcond.1, hcond.2]⟩
    · rw [applyCheckOverride_some s3 c hX]
      have hic : (checkForCheckmate s3).isInCheck = some c := by
        rw [checkForCheckmate_isInCheck, hX]
      constructor
      · show (checkForCheckmate s3).remainingMoves = _
        rw [checkForCheckmate_remainingMoves, hrm3]
      · simp [hic]
  · rw [if_neg hcond]
    set s3 := checkForCheck (clearSelection
      { s with remainingMoves := s.remainingMoves - 1 }) with hs3
    have hrm3 : s3.remainingMoves = s.remainingMoves - 1 := by
      rw [hs3, checkForCheck_remainingMoves]
      rfl
    have hwd3 : s3.waitingForDiceRoll = false := by
      rw [hs3, checkForCheck_waitingForDiceRoll]
      exact hw
    rcases hX : s3.isInCheck with _ | c
    · rw [applyCheckOverride_none s3 hX]
      refine ⟨hrm3, ?_⟩
      rw [hwd3, hrm3, hX]
      simp only [Bool.false_eq_true, false_iff, not_and]
      intro h1 h2 _
      exact hcond ⟨h1, h2⟩
    · rw [applyCheckOverride_some s3 c hX]
      have hic : (checkForCheckmate s3).isInCheck = some c := by
        rw [checkForCheckmate_isInCheck, hX]
      constructor
      · show (checkForCheckmate s3).remainingMoves = _
        rw [checkForCheckmate_remainingMoves, hrm3]
      · simp [hic]

/-- C4 (amended): in the Dice variant every successful `movePiece`
decrements `remainingMoves` by exactly 1, and `waitingForDiceRoll`
becomes true exactly when the counter reached 0, the pre-move check flag
was clear (the gate reads the stale flag), and no check exists after the
move. -/
theorem dice_decrement_amended (st : EngineState) (src dst : Position)
    (s' : EngineState) (hgt : st.gameType = .dice)
    (h : movePiece st src dst = some (true, s')) :
    s'.remainingMoves = st.remainingMoves - 1 ∧
    (s'.waitingForDiceRoll = true ↔
      (s'.remainingMoves ≤ 0 ∧ st.isInCheck = none ∧ s'.isInCheck = none)) := by
  obtain ⟨-, -, g3, b, lm, hs⟩ := movePiece_success h
  have hw : st.waitingForDiceRoll = false := by
    rcases hwb : st.waitingForDiceRoll
    · rfl
    · exact absurd ⟨hgt, hwb⟩ g3
  subst hs
  exact handlePostMove_dice { st with board := b, lastMove := lm } hgt hw

/-- C4 witness: the check-resolving king move in `c4State`, through
`dice_decrement_amended` at that concrete input. -/
theorem dice_decrement_amended_witness :
    c4After.remainingMoves = c4State.remainingMoves - 1 ∧
    (c4After.waitingForDiceRoll = true ↔
      (c4After.remainingMoves ≤ 0 ∧ c4State.isInCheck = none ∧
        c4After.isInCheck = none)) :=
  dice_decrement_amended c4State ⟨7, 4⟩ ⟨7, 3⟩ c4After (by decide) (by decide)

theorem squareAt_of_pieceAt {b : Board} {r c : Int} {piece : Piece}
    (hp : pieceAt b r c = some piece) :
    squareAt b r c = some (some piece) := by
  unfold pieceAt at hp
  rcases hsq : squareAt b r c with _ | sq <;> rw [hsq] at hp
  · simp at hp
  · exact congrArg some hp

theorem advanceTurnPhase_lastMove (s : EngineState) :
    (advanceTurnPhase s).lastMove = s.lastMove := by
  unfold advanceTurnPhase
  dsimp only
  split_ifs <;> rfl

theorem checkForCheck_lastMove (s : EngineState) :
    (checkForCheck s).lastMove = s.lastMove := by
  rw [checkForCheck_eq s]

theorem checkForCheckmate_lastMove (s : EngineState) :
    (checkForCheckmate s).lastMove = s.lastMove := by
  conv_lhs => rw [checkForCheckmate_eq s]

theorem applyCheckOverride_lastMove (s : EngineState) :
    (applyCheckOverride s).lastMove = s.lastMove := by
  rcases h : s.isInCheck with _ | c
  · rw [applyCheckOverride_none s h]
  · rw [applyCheckOverride_some s c h]
    show (checkForCheckmate s).lastMove = s.lastMove
    exact checkForCheckmate_lastMove s

theorem handlePostMove_lastMove (s : EngineState) :
    (handlePostMove s).lastMove = s.lastMove := by
  unfold handlePostMove
  rw [applyCheckOverride_lastMove, checkForCheck_lastMove]
  show (advanceTurnPhase s).lastMove = s.lastMove
  exact advanceTurnPhase_lastMove s

/-- C6 (amended): every successful non-castling `movePiece` overwrites
`lastMove` with `{from, to, piece}` where `piece` is the pre-move
snapshot of the moved piece (`hasMoved` still as it was); a successful
castling `movePiece` (king moving from column 4 to column 6 or 2) leaves
`lastMove` unchanged. -/
theorem lastMove_snapshot_amended (st : EngineState) (src dst : Position)
    (s' : EngineState) (piece : Piece)
    (hp : pieceAt st.board src.row src.col = some piece)
    (h : movePiece st src dst = some (true, s')) :
    (¬ (piece.type = .king ∧ src.col = 4 ∧ (dst.col = 6 ∨ dst.col = 2)) →
      s'.lastMove = some ⟨src, dst, piece⟩) ∧
    ((piece.type = .king ∧ src.col = 4 ∧ (dst.col = 6 ∨ dst.col = 2)) →
      s'.lastMove = st.lastMove) := by
  obtain ⟨g1, g2, g3, -⟩ := movePiece_success h
  simp only [movePiece, if_neg g1, if_neg g2, if_neg g3, squareAt_of_pieceAt hp] at h
  constructor
  · intro hnc
    have hc1 : ¬ (piece.type = .king ∧ src.col = 4 ∧ dst.col = 6) := fun hx =>
      hnc ⟨hx.1, hx.2.1, .inl hx.2.2⟩
    have hc2 : ¬ (piece.type = .king ∧ src.col = 4 ∧ dst.col = 2) := fun hx =>
      hnc ⟨hx.1, hx.2.1, .inr hx.2.2⟩
    rw [if_neg hc1, if_neg hc2] at h
    split_ifs at h <;>
      first
      | (simp only [Option.some.injEq, Prod.mk.injEq, true_and] at h
         rw [← h, handlePostMove_lastMove])
      | simp at h
  · rintro ⟨hk, h4, hd6 | hd2⟩
    · rw [if_pos ⟨hk, h4, hd6⟩] at h
      split_ifs at h <;>
        first
        | (simp only [Option.some.injEq, Prod.mk.injEq, true_and] at h
           rw [← h, handlePostMove_lastMove])
        | simp at h
    · have hc1 : ¬ (piece.type = .king ∧ src.col = 4 ∧ dst.col = 6) := by
        rintro ⟨-, -, hx⟩
        rw [hd2] at hx
        exact absurd hx (by decide)
      rw [if_neg hc1, if_pos ⟨hk, h4, hd2⟩] at h
      split_ifs at h <;>
        first
        | (simp only [Option.some.injEq, Prod.mk.injEq, true_and] at h
           rw [← h, handlePostMove_lastMove])
        | simp at h

/-- C6 witness: e2-e4 on a fresh classic engine records the pre-move pawn
snapshot, through `lastMove_snapshot_amended` at that concrete input. -/
theorem lastMove_snapshot_amended_witness :
    e2e4After.lastMove =
      some ⟨⟨6, 4⟩, ⟨4, 4⟩, ⟨.pawn, .white, false⟩⟩ :=
  (lastMove_snapshot_amended cmS0 ⟨6, 4⟩ ⟨4, 4⟩ e2e4After ⟨.pawn, .white, false⟩
    (by decide) (by decide)).1 (by decide)

/-- Unpacking of a successful castling precondition: both participants in
place and unmoved, the cached check flag clear for the king's color, the
gap empty, and — for the two real rook columns — the transit squares
unattacked. -/
theorem isCastlingPossibleGen_spec (attack : Position → PlayerColor → Bool)
    (st : EngineState) (kingPos rookPos : Position)
    (h : isCastlingPossibleGen attack st kingPos rookPos = true) :
    ∃ king rook,
      pieceAt st.board kingPos.row kingPos.col = some king ∧
      pieceAt st.board rookPos.row rookPos.col = some rook ∧
      king.type = .king ∧ king.hasMoved = false ∧
      rook.type = .rook ∧ rook.hasMoved = false ∧
      st.isInCheck ≠ some king.color ∧
      (∀ c ∈ colsStrictlyBetween kingPos.col rookPos.col,
        pieceAt st.board kingPos.row c = none) ∧
      (rookPos.col = 7 → ∀ c ∈ ([4, 5, 6] : List Int),
        attack ⟨kingPos.row, c⟩ (oppositeColor king.color) = false) ∧
      (rookPos.col = 0 → ∀ c ∈ ([2, 3, 4] : List Int),
        attack ⟨kingPos.row, c⟩ (oppositeColor king.color) = false) := by
  unfold isCastlingPossibleGen at h
  rcases hkg : pieceAt st.board kingPos.row kingPos.col with _ | king <;>
    rw [hkg] at h
  · simp at h
  rcases hrk : pieceAt st.board rookPos.row rookPos.col with _ | rook <;>
    rw [hrk] at h
  · simp at h
  dsimp only at h
  refine ⟨king, rook, rfl, rfl, ?_⟩
  split_ifs at h with hbad hchk hbet h7 h0
  · -- castling happened with rookPos.col = 7
    push_neg at hbad hbet
    refine ⟨hbad.1, by simpa using hbad.2.1, hbad.2.2.1, by simpa using hbad.2.2.2,
      hchk, ?_, ?_, ?_⟩
    · intro c hc
      have := List.all_eq_true.mp hbet c hc
      simpa [Option.isNone_iff_eq_none] using this
    · intro _ c hc
      have := List.all_eq_true.mp h c hc
      simpa using this
    · intro h0'
      rw [h7] at h0'
      exact absurd h0' (by decide)
  · -- castling happened with rookPos.col = 0
    push_neg at hbad hbet
    refine ⟨hbad.1, by simpa using hbad.2.1, hbad.2.2.1, by simpa using hbad.2.2.2,
      hchk, ?_, ?_, ?_⟩
    · intro c hc
      have := List.all_eq_true.mp hbet c hc
      simpa [Option.isNone_iff_eq_none] using this
    · intro h7'
      exact absurd h7' h7
    · intro _ c hc
      have := List.all_eq_true.mp h c hc
      simpa using this
  · -- rook on neither castling column: no attack loop ran
    push_neg at hbad hbet
    refine ⟨hbad.1, by simpa using hbad.2.1, hbad.2.2.1, by simpa using hbad.2.2.2,
      hchk, ?_, ?_, ?_⟩
    · intro c hc
      have := List.all_eq_true.mp hbet c hc
      simpa [Option.isNone_iff_eq_none] using this
    · intro h7'
      exact absurd h7' h7
    · intro h0'
      exact absurd h0' h0

/-- C7: `movePiece` performs a castling relocation (king from column 4 to
column 6 or 2) only when `isCastlingPossible` holds, hence only when
king and rook are in place and have never moved, every square strictly
between them is empty, and none of the king's transit squares — its
start square through its destination square — is attacked by the
opponent on the live board. -/
theorem castling_guard_conditions (st : EngineState) (src dst : Position)
    (s' : EngineState) (piece : Piece)
    (hp : pieceAt st.board src.row src.col = some piece)
    (hk : piece.type = .king) (h4 : src.col = 4)
    (hdst : dst.col = 6 ∨ dst.col = 2)
    (h : movePiece st src dst = some (true, s')) :
    isCastlingPossible st ⟨castleRowOf piece, 4⟩
        ⟨castleRowOf piece, castleRookCol dst⟩ = true ∧
    ∃ king rook,
      pieceAt st.board (castleRowOf piece) 4 = some king ∧
      king.type = .king ∧ king.hasMoved = false ∧
      pieceAt st.board (castleRowOf piece) (castleRookCol dst) = some rook ∧
      rook.type = .rook ∧ rook.hasMoved = false ∧
      (∀ c ∈ colsStrictlyBetween (4 : Int) (castleRookCol dst),
        pieceAt st.board (castleRowOf piece) c = none) ∧
      (∀ c ∈ castleTransitCols dst,
        attackLive st ⟨castleRowOf piece, c⟩ (oppositeColor king.color) = false) := by
  obtain ⟨g1, g2, g3, -⟩ := movePiece_success h
  simp only [movePiece, if_neg g1, if_neg g2, if_neg g3, squareAt_of_pieceAt hp] at h
  have hrow : ((if piece.color = PlayerColor.white then (7 : Int) else 0)) =
      castleRowOf piece := rfl
  rcases hdst with hd6 | hd2
  · rw [if_pos ⟨hk, h4, hd6⟩] at h
    have hrc : castleRookCol dst = 7 := by simp [castleRookCol, hd6]
    have htc : castleTransitCols dst = [4, 5, 6] := by simp [castleTransitCols, hd6]
    rw [hrc, htc]
    rw [hrow] at h
    split_ifs at h with hcast
    · refine ⟨hcast, ?_⟩
      obtain ⟨king, rook, hkg, hrk, hkt, hkm, hrt, hrm, -, hbet, hatk, -⟩ :=
        isCastlingPossibleGen_spec (attackLive st) st _ _ hcast
      exact ⟨king, rook, hkg, hkt, hkm, hrk, hrt, hrm, hbet, hatk rfl⟩
    · simp at h
  · have hc1 : ¬ (piece.type = .king ∧ src.col = 4 ∧ dst.col = 6) := by
      rintro ⟨-, -, hx⟩
      rw [hd2] at hx
      exact absurd hx (by decide)
    rw [if_neg hc1, if_pos ⟨hk, h4, hd2⟩] at h
    have hrc : castleRookCol dst = 0 := by simp [castleRookCol, hd2]
    have htc : castleTransitCols dst = [2, 3, 4] := by simp [castleTransitCols, hd2]
    rw [hrc, htc]
    rw [hrow] at h
    split_ifs at h with hcast
    · refine ⟨hcast, ?_⟩
      obtain ⟨king, rook, hkg, hrk, hkt, hkm, hrt, hrm, -, hbet, -, hatk⟩ :=
        isCastlingPossibleGen_spec (attackLive st) st _ _ hcast
      exact ⟨king, rook, hkg, hkt, hkm, hrk, hrt, hrm, hbet, hatk rfl⟩
    · simp at h

/-- C7 witness: White's kingside castle in `castleState`, through
`castling_guard_conditions` at that concrete input. -/
theorem castling_guard_conditions_witness :
    isCastlingPossible castleState
        ⟨castleRowOf ⟨.king, .white, false⟩, 4⟩
        ⟨castleRowOf ⟨.king, .white, false⟩, castleRookCol ⟨7, 6⟩⟩ = true ∧
    ∃ king rook,
      pieceAt castleState.board (castleRowOf ⟨.king, .white, false⟩) 4 = some king ∧
      king.type = .king ∧ king.hasMoved = false ∧
      pieceAt castleState.board (castleRowOf ⟨.king, .white, false⟩)
        (castleRookCol ⟨7, 6⟩) = some rook ∧
      rook.type = .rook ∧ rook.hasMoved = false ∧
      (∀ c ∈ colsStrictlyBetween (4 : Int) (castleRookCol ⟨7, 6⟩),
        pieceAt castleState.board (castleRowOf ⟨.king, .white, false⟩) c = none) ∧
      (∀ c ∈ castleTransitCols ⟨7, 6⟩,
        attackLive castleState ⟨castleRowOf ⟨.king, .white, false⟩, c⟩
          (oppositeColor (king.color)) = false) :=
  castling_guard_conditions castleState ⟨7, 4⟩ ⟨7, 6⟩ castleAfter
    ⟨.king, .white, false⟩ (by decide) rfl rfl (.inl rfl) (by decide)

theorem squareAt_isSome_of_wf {b : Board} (hwf : boardWF b) {p : Position}
    (hin : inRange p) : ∃ sq, squareAt b p.row p.col = some sq := by
  obtain ⟨hlen, hrows⟩ := hwf
  obtain ⟨h1, h2, h3, h4⟩ := hin
  unfold squareAt
  rw [if_pos ⟨h1, h3⟩]
  have hr : p.row.toNat < b.length := by rw [hlen]; omega
  rw [List.get?_eq_get hr, Option.some_bind]
  have hc : p.col.toNat < (b.get ⟨p.row.toNat, hr⟩).length := by
    rw [hrows _ (b.get_mem _ _)]
    omega
  rw [List.get?_eq_get hc]
  exact ⟨_, rfl⟩

/-- C3 (amended): invalid caller input is rejected without raising on
the engine's recursion-free early-return paths — selecting an empty or
opponent-colored square clears the selection, moving from an empty
square returns `false`, promoting a non-pawn or off-rank square is a
no-op, and a gated `rollDice`/`tossCoin` returns its sentinel; each of
these source paths returns before any attack scan runs.  The blanket
never-raises claim is false: out-of-range positions throw a `TypeError` on
the unguarded board access (see the counterexample), and operations that
do reach the attack scan can overflow the call stack through the
unbounded castling-gate recursion, which this embedding does not model
(see the header note on `attackRec`). -/
theorem publicOps_rejection_paths_amended (st : EngineState) (p q : Position)
    (t : PieceType) (v : Int) (c : PlayerColor)
    (hwf : boardWF st.board) (hin : inRange p) :
    (pieceAt st.board p.row p.col = none →
      selectPiece st p = some (clearSelection st) ∧
      movePiece st p q = some (false, st) ∧
      promotePawn st p t = some st) ∧
    (∀ piece, pieceAt st.board p.row p.col = some piece →
      piece.color ≠ st.currentTurn →
      selectPiece st p = some (clearSelection st)) ∧
    (∀ piece, pieceAt st.board p.row p.col = some piece →
      ¬ (piece.type = .pawn ∧
        ((piece.color = .white ∧ p.row = 0) ∨ (piece.color = .black ∧ p.row = 7))) →
      promotePawn st p t = some st) ∧
    (st.isInCheck ≠ none ∨ st.waitingForDiceRoll = false →
      rollDice st v = (⟨0, 0, st.currentTurn⟩, st)) ∧
    (st.isInCheck ≠ none ∨ st.waitingForCoinToss = false →
      tossCoin st c = (⟨st.currentTurn⟩, st)) := by
  refine ⟨?_, ?_, ?_, ?_, ?_⟩
  · intro hpe
    obtain ⟨sq, hsq⟩ := squareAt_isSome_of_wf hwf hin
    have hsq' : squareAt st.board p.row p.col = some none := by
      unfold pieceAt at hpe
      rw [hsq] at hpe
      rcases sq with _ | piece
      · exact hsq
      · simp at hpe
    refine ⟨?_, ?_, ?_⟩
    · unfold selectPiece
      rw [hsq']
    · unfold movePiece
      split_ifs <;> try rfl
      all_goals rw [hsq']
    · unfold promotePawn
      rw [hsq']
  · intro piece hp hcol
    unfold selectPiece
    rw [squareAt_of_pieceAt hp]
    dsimp only
    rw [if_pos hcol]
  · intro piece hp hno
    unfold promotePawn
    rw [squareAt_of_pieceAt hp]
    dsimp only
    by_cases hpt : piece.type = PieceType.pawn
    · rw [if_neg (by simp [hpt])]
      have hr : ¬ ((piece.color = .white ∧ p.row = 0) ∨
          (piece.color = .black ∧ p.row = 7)) := fun hr => hno ⟨hpt, hr⟩
      rw [if_pos hr]
    · rw [if_pos (by simpa using hpt)]
  · intro hgate
    unfold rollDice
    rw [if_pos hgate]
  · intro hgate
    unfold tossCoin
    rw [if_pos hgate]

/-- C3 witness: the amended statement at a fresh classic engine and the
in-range empty square d5, exercising the empty-square rejections and the
gated sentinels. -/
theorem publicOps_rejection_paths_amended_witness :
    (pieceAt (mkEngine .classic).board (3 : Int) (3 : Int) = none →
      selectPiece (mkEngine .classic) ⟨3, 3⟩ =
        some (clearSelection (mkEngine .classic)) ∧
      movePiece (mkEngine .classic) ⟨3, 3⟩ ⟨4, 3⟩ =
        some (false, mkEngine .classic) ∧
      promotePawn (mkEngine .classic) ⟨3, 3⟩ PieceType.queen =
        some (mkEngine .classic)) ∧
    (∀ piece, pieceAt (mkEngine .classic).board (3 : Int) (3 : Int) = some piece →
      piece.color ≠ (mkEngine .classic).currentTurn →
      selectPiece (mkEngine .classic) ⟨3, 3⟩ =
        some (clearSelection (mkEngine .classic))) ∧
    (∀ piece, pieceAt (mkEngine .classic).board (3 : Int) (3 : Int) = some piece →
      ¬ (piece.type = .pawn ∧
        ((piece.color = .white ∧ (3 : Int) = 0) ∨
         (piece.color = .black ∧ (3 : Int) = 7))) →
      promotePawn (mkEngine .classic) ⟨3, 3⟩ PieceType.queen =
        some (mkEngine .classic)) ∧
    ((mkEngine .classic).isInCheck ≠ none ∨
        (mkEngine .classic).waitingForDiceRoll = false →
      rollDice (mkEngine .classic) 5 =
        (⟨0, 0, (mkEngine .classic).currentTurn⟩, mkEngine .classic)) ∧
    ((mkEngine .classic).isInCheck ≠ none ∨
        (mkEngine .classic).waitingForCoinToss = false →
      tossCoin (mkEngine .classic) PlayerColor.black =
        (⟨(mkEngine .classic).currentTurn⟩, mkEngine .classic)) :=
  publicOps_rejection_paths_amended (mkEngine .classic) ⟨3, 3⟩ ⟨4, 3⟩
    PieceType.queen 5 PlayerColor.black (by decide) (by decide)

/-- C8 (amended): for in-range positions `promotePawn` is a complete
no-op unless the square holds a pawn standing on the promotion rank of
the pawn's own color — regardless of whose turn it is; in that case it
replaces the pawn by a `newType` piece with `hasMoved = true` and reruns
check detection (checkmate detection only under a fresh check flag), as
captured by `recheckPipeline`. -/
theorem promotePawn_amended (st : EngineState) (pos : Position) (t : PieceType)
    (hwf : boardWF st.board) (hin : inRange pos) :
    (∀ piece, pieceAt st.board pos.row pos.col = some piece →
      piece.type = .pawn →
      ((piece.color = .white ∧ pos.row = 0) ∨ (piece.color = .black ∧ pos.row = 7)) →
      promotePawn st pos t =
        some (recheckPipeline (promoteApplied st pos t piece.color))) ∧
    (∀ piece, pieceAt st.board pos.row pos.col = some piece →
      ¬ (piece.type = .pawn ∧
        ((piece.color = .white ∧ pos.row = 0) ∨ (piece.color = .black ∧ pos.row = 7))) →
      promotePawn st pos t = some st) ∧
    (pieceAt st.board pos.row pos.col = none → promotePawn st pos t = some st) := by
  refine ⟨?_, ?_, ?_⟩
  · intro piece hp hpt hrank
    unfold promotePawn
    rw [squareAt_of_pieceAt hp]
    dsimp only
    rw [if_neg (by simp [hpt]), if_neg (not_not_intro hrank)]
    rfl
  · intro piece hp hno
    unfold promotePawn
    rw [squareAt_of_pieceAt hp]
    dsimp only
    by_cases hpt : piece.type = PieceType.pawn
    · rw [if_neg (by simp [hpt])]
      have hr : ¬ ((piece.color = .white ∧ pos.row = 0) ∨
          (piece.color = .black ∧ pos.row = 7)) := fun hr => hno ⟨hpt, hr⟩
      rw [if_pos hr]
    · rw [if_pos (by simpa using hpt)]
  · intro hpe
    obtain ⟨sq, hsq⟩ := squareAt_isSome_of_wf hwf hin
    have hsq' : squareAt st.board pos.row pos.col = some none := by
      unfold pieceAt at hpe
      rw [hsq] at hpe
      rcases sq with _ | piece
      · exact hsq
      · simp at hpe
    unfold promotePawn
    rw [hsq']

/-- C8 witness: promoting the Black pawn stranded on row 7 of `c8State`
(with White to move), through `promotePawn_amended` at that concrete
input. -/
theorem promotePawn_amended_witness :
    promotePawn c8State ⟨7, 0⟩ PieceType.queen =
      some (recheckPipeline
        (promoteApplied c8State ⟨7, 0⟩ PieceType.queen PlayerColor.black)) :=
  (promotePawn_amended c8State ⟨7, 0⟩ PieceType.queen (by decide) (by decide)).1
    ⟨.pawn, .black, true⟩ (by decide) rfl (.inr ⟨rfl, rfl⟩)

/-- C10 (amended): in every Dice-variant state with `remainingMoves ≤ 0`,
`waitingForDiceRoll = false` and a check flagged, `movePiece` returns
`false` and changes nothing for every pair of positions, `rollDice` and
`tossCoin` return their sentinels leaving the state unchanged, and
`selectPiece` can alter only the selection fields; `promotePawn` and
`resetGame`, however, can still change the game (see the
counterexample). -/
theorem deadlock_noop_amended (st : EngineState) (src dst p : Position)
    (v : Int) (c : PlayerColor)
    (hgt : st.gameType = .dice) (hrm : st.remainingMoves ≤ 0)
    (hw : st.waitingForDiceRoll = false) (hchk : st.isInCheck ≠ none) :
    movePiece st src dst = some (false, st) ∧
    rollDice st v = (⟨0, 0, st.currentTurn⟩, st) ∧
    tossCoin st c = (⟨st.currentTurn⟩, st) ∧
    (∀ s', selectPiece st p = some s' →
      s'.board = st.board ∧ s'.currentTurn = st.currentTurn ∧
      s'.isInCheck = st.isInCheck ∧ s'.isCheckmate = st.isCheckmate ∧
      s'.lastMove = st.lastMove ∧ s'.remainingMoves = st.remainingMoves ∧
      s'.waitingForDiceRoll = st.waitingForDiceRoll ∧
      s'.waitingForCoinToss = st.waitingForCoinToss) := by
  have hgate : st.gameType = .dice ∧ st.remainingMoves ≤ 0 := ⟨hgt, hrm⟩
  refine ⟨?_, ?_, ?_, ?_⟩
  · simp only [movePiece, if_pos hgate]
  · unfold rollDice
    rw [if_pos (Or.inl hchk)]
  · unfold tossCoin
    rw [if_pos (Or.inl hchk)]
  · intro s' hsel
    unfold selectPiece at hsel
    rcases hsq : squareAt st.board p.row p.col with _ | sq <;> rw [hsq] at hsel
    · simp at hsel
    · rcases sq with _ | piece
      · obtain rfl := Option.some.inj hsel
        exact ⟨rfl, rfl, rfl, rfl, rfl, rfl, rfl, rfl⟩
      · dsimp only at hsel
        split_ifs at hsel <;> obtain rfl := Option.some.inj hsel <;>
          exact ⟨rfl, rfl, rfl, rfl, rfl, rfl, rfl, rfl⟩

/-- C10 witness: the dead-locked dice state `c10State`, through
`deadlock_noop_amended` at concrete inputs. -/
theorem deadlock_noop_amended_witness :
    movePiece c10State ⟨7, 4⟩ ⟨7, 3⟩ = some (false, c10State) ∧
    rollDice c10State 5 = (⟨0, 0, c10State.currentTurn⟩, c10State) ∧
    tossCoin c10State PlayerColor.black =
      (⟨c10State.currentTurn⟩, c10State) ∧
    (∀ s', selectPiece c10State ⟨7, 4⟩ = some s' →
      s'.board = c10State.board ∧ s'.currentTurn = c10State.currentTurn ∧
      s'.isInCheck = c10State.isInCheck ∧ s'.isCheckmate = c10State.isCheckmate ∧
      s'.lastMove = c10State.lastMove ∧
      s'.remainingMoves = c10State.remainingMoves ∧
      s'.waitingForDiceRoll = c10State.waitingForDiceRoll ∧
      s'.waitingForCoinToss = c10State.waitingForCoinToss) :=
  deadlock_noop_amended c10State ⟨7, 4⟩ ⟨7, 3⟩ ⟨7, 4⟩ 5 PlayerColor.black
    rfl (by decide) rfl (by decide)

end LuckyChess
